import Mathlib

/-
Shallow embedding of the accessibility output module of p5js-node
(src/src/accessibility/outputs.js).

Modelling conventions:
* JS numbers are modelled as rationals (ℚ).  All arithmetic the claims
  exercise is exact on the inputs involved.
* `JSON.stringify` is injective on the registry data modelled here
  (records of one kind always carry the same fields in the same order),
  so stringified snapshots are modelled structurally: the `pShapes`
  string is `Option Registry`, where `none` models the initial value
  (the empty string, which is not the serialization of any registry)
  and `some r` models `JSON.stringify` of `r`.
* `Math.cos`, `Math.sin`, `Math.sqrt` and `Math.PI` have no exact
  rational values; like the named-colour lookup `_rgbColorName`, they
  are external collaborators, modelled as parameters (`JsMath`, `Env`).
-/

namespace P5A

/-- JS Math.floor. -/
def jsFloor (x : ℚ) : ℤ := ⌊x⌋

/-- JS Math.round: rounds half toward positive infinity. -/
def jsRound (x : ℚ) : ℤ := ⌊x + 1/2⌋

/-- JS truncation toward zero, as used by the JS % operator. -/
def jsTrunc (x : ℚ) : ℤ := if x < 0 then ⌈x⌉ else ⌊x⌋

/-- The JS remainder operator `a % n`: the sign follows the dividend. -/
def jsRem (a n : ℚ) : ℚ := a - n * jsTrunc (a / n)

/-- `Number(x.toFixed(2))`: rounding to two decimal places
(ties toward positive infinity). -/
def toFixed2 (x : ℚ) : ℚ := (jsRound (x * 100) : ℚ) / 100

/-- The parts of the JS Math library used by the module that have no
exact rational value; treated as an external collaborator. -/
structure JsMath where
  pi : ℚ
  cos : ℚ → ℚ
  sin : ℚ → ℚ
  sqrt : ℚ → ℚ

/-- The `_accessibleOutputs` flags (text, grid and their label variants). -/
structure AccsFlags where
  text : Bool
  grid : Bool
  textLabel : Bool
  gridLabel : Bool

/-- `this.ingredients.colors`: RGBA tuples plus cached colour names.
The stored RGBA starts out unset (`none`); the JS comparison
`stored !== args` is modelled as value inequality on the tuple. -/
structure Colors where
  background : String := ""
  backgroundRGBA : Option (List ℚ) := none
  fill : String := ""
  fillRGBA : Option (List ℚ) := none
  stroke : String := ""
  strokeRGBA : Option (List ℚ) := none
deriving DecidableEq

/-- One record of `ingredients.shapes`: the fields the JS code puts on
`include`.  `length` is present only for lines, `area` for every kind
except line and point. -/
structure ShapeRecord where
  color : String
  length : Option ℤ := none
  area : Option ℤ := none
  pos : String
  loc : ℤ × ℤ
deriving DecidableEq

/-- `ingredients.shapes`: a JS object mapping a shape kind to its record
sequence, with keys in insertion order. -/
abbrev Registry := List (String × List ShapeRecord)

/-- Lookup `shapes[f]` (first entry with the given key). -/
def Registry.find : Registry → String → Option (List ShapeRecord)
  | [], _ => none
  | (k, v) :: r, key => if k = key then some v else Registry.find r key

/-- `shapes[f].push(v)`: append `v` at the end of the sequence stored
under key `k`, leaving every other entry untouched. -/
def Registry.push : Registry → String → ShapeRecord → Registry
  | [], _, _ => []
  | (k1, v1) :: r, k, v =>
      if k1 = k then (k1, v1 ++ [v]) :: Registry.push r k v
      else (k1, v1) :: Registry.push r k v

/-- `this.ingredients`. -/
structure Ingredients where
  shapes : Registry
  pShapes : Option Registry
  colors : Colors
deriving DecidableEq

/-- The numeric draw arguments (`args[i]` by position) plus, for arcs,
the closure-mode string found at `args[6]`. -/
structure DrawArgs where
  num : ℕ → ℚ
  mode : Option String := none

/-- The ambient p5 instance data the module reads but never writes:
canvas size, canvas id, the accessible-output flags, and the external
collaborators (Math library, named-colour lookup). -/
structure Env where
  math : JsMath
  rgbColorName : List ℚ → String
  width : ℚ
  height : ℚ
  cnvId : String
  accessibleOutputs : AccsFlags

/-- Modelled from the spec: `p5.prototype.dist` is not under src/; per
the spec the line descriptor uses the "rounded Euclidean length", so
`dist` is the Euclidean distance, computed with the Math collaborator. -/
def dist (M : JsMath) (x1 y1 x2 y2 : ℚ) : ℚ :=
  M.sqrt ((x2 - x1) ^ 2 + (y2 - y1) ^ 2)

/-- `_getMiddle`: centroid of a shape from its kind and arguments. -/
def _getMiddle (f : String) (args : DrawArgs) : ℚ × ℚ :=
  let a := args.num
  if f = "rectangle" ∨ f = "ellipse" ∨ f = "arc" ∨ f = "circle" ∨ f = "square" then
    ((jsRound (a 0 + a 2 / 2) : ℚ), (jsRound (a 1 + a 3 / 2) : ℚ))
  else if f = "triangle" then
    ((a 0 + a 2 + a 4) / 3, (a 1 + a 3 + a 5) / 3)
  else if f = "quadrilateral" then
    ((a 0 + a 2 + a 4 + a 6) / 4, (a 1 + a 3 + a 5 + a 7) / 4)
  else if f = "line" then
    ((a 0 + a 2) / 2, (a 1 + a 3) / 2)
  else
    (a 0, a 1)

/-- `_getPos`: names the position of a point on the canvas. -/
def _getPos (x y : ℚ) (canvasWidth canvasHeight : ℚ) : String :=
  if x < 0.4 * canvasWidth then
    if y < 0.4 * canvasHeight then "top left"
    else if y > 0.6 * canvasHeight then "bottom left"
    else "mid left"
  else if x > 0.6 * canvasWidth then
    if y < 0.4 * canvasHeight then "top right"
    else if y > 0.6 * canvasHeight then "bottom right"
    else "mid right"
  else
    if y < 0.4 * canvasHeight then "top middle"
    else if y > 0.6 * canvasHeight then "bottom middle"
    else "middle"

/-- `_canvasLocator`: locates a point in a 10 by 10 grid
(`noRows = noCols = 10`). -/
def _canvasLocator (x y : ℚ) (canvasWidth canvasHeight : ℚ) : ℤ × ℤ :=
  let locX := jsFloor (x / canvasWidth * 10)
  let locY := jsFloor (y / canvasHeight * 10)
  (if locX = 10 then locX - 1 else locX,
   if locY = 10 then locY - 1 else locY)

/-- `_getArea`: area of a shape as a rounded percentage of the canvas. -/
def _getArea (M : JsMath) (objectType : String) (shapeArgs : DrawArgs)
    (canvasWidth canvasHeight : ℚ) : ℤ :=
  let a := shapeArgs.num
  let objectArea : ℚ :=
    if objectType = "arc" then
      let arcSizeInRadians :=
        jsRem (jsRem (a 5 - a 4) (M.pi * 2) + M.pi * 2) (M.pi * 2)
      let base := arcSizeInRadians * a 2 * a 3 / 8
      if shapeArgs.mode = some "open" ∨ shapeArgs.mode = some "chord" then
        let Ax := a 0
        let Ay := a 1
        let Bx := a 0 + a 2 / 2 * toFixed2 (M.cos (a 4))
        let By := a 1 + a 3 / 2 * toFixed2 (M.sin (a 4))
        let Cx := a 0 + a 2 / 2 * toFixed2 (M.cos (a 5))
        let Cy := a 1 + a 3 / 2 * toFixed2 (M.sin (a 5))
        let areaOfExtraTriangle :=
          |Ax * (By - Cy) + Bx * (Cy - Ay) + Cx * (Ay - By)| / 2
        if arcSizeInRadians > M.pi then base + areaOfExtraTriangle
        else base - areaOfExtraTriangle
      else base
    else if objectType = "ellipse" ∨ objectType = "circle" then
      3.14 * a 2 / 2 * a 3 / 2
    else if objectType = "line" then 0
    else if objectType = "point" then 0
    else if objectType = "quadrilateral" then
      |(a 6 + a 0) * (a 7 - a 1) + (a 0 + a 2) * (a 1 - a 3) +
        (a 2 + a 4) * (a 3 - a 5) + (a 4 + a 6) * (a 5 - a 7)| / 2
    else if objectType = "rectangle" ∨ objectType = "square" then
      a 2 * a 3
    else if objectType = "triangle" then
      |a 0 * (a 3 - a 5) + a 2 * (a 5 - a 1) + a 4 * (a 1 - a 3)| / 2
    else 0
  jsRound (objectArea * 100 / (canvasWidth * canvasHeight))

/-- The kind rewrite at the top of `_accsOutput`: an ellipse whose two
size arguments are equal becomes a circle, a rectangle whose two size
arguments are equal becomes a square. -/
def reclassifyKind (f : String) (args : DrawArgs) : String :=
  if f = "ellipse" ∧ args.num 2 = args.num 3 then "circle"
  else if f = "rectangle" ∧ args.num 2 = args.num 3 then "square"
  else f

/-- The `include` record `_accsOutput` builds for an (already
reclassified) kind `f`.  In the line branch the source passes
`[args[0], [1]]` and `[args[2], [3]]` to `_getPos`: the literal arrays
`[1]` and `[3]` coerce to the numbers 1 and 3 in the comparisons of
`_getPos`, so the y inputs are the constants 1 and 3. -/
def buildInclude (env : Env) (colors : Colors) (f : String) (args : DrawArgs) :
    ShapeRecord :=
  let middle := _getMiddle f args
  if f = "line" then
    let p1 := _getPos (args.num 0) 1 env.width env.height
    let p2 := _getPos (args.num 2) 3 env.width env.height
    { color := colors.stroke
      length := some (jsRound (dist env.math (args.num 0) (args.num 1)
        (args.num 2) (args.num 3)))
      pos := if p1 = p2 then "at " ++ p1 else "from " ++ p1 ++ " to " ++ p2
      loc := _canvasLocator middle.1 middle.2 env.width env.height }
  else if f = "point" then
    { color := colors.stroke
      pos := _getPos middle.1 middle.2 env.width env.height
      loc := _canvasLocator middle.1 middle.2 env.width env.height }
  else
    { color := colors.fill
      area := some (_getArea env.math f args env.width env.height)
      pos := _getPos middle.1 middle.2 env.width env.height
      loc := _canvasLocator middle.1 middle.2 env.width env.height }

/-- `_accsOutput`: builds `ingredients.shapes`.  The JS guard
`shapes[f] !== [include]` compares a stored reference with a freshly
built array and is therefore always true; the dedup loop sets `add`
to false exactly when some stored record of the kind equals the new
record. -/
def _accsOutput (env : Env) (ing : Ingredients) (f : String) (args : DrawArgs) :
    Ingredients :=
  let f2 := reclassifyKind f args
  let incl := buildInclude env ing.colors f2 args
  match Registry.find ing.shapes f2 with
  | none => { ing with shapes := ing.shapes ++ [(f2, [incl])] }
  | some recs =>
      if incl ∈ recs then ing
      else { ing with shapes := Registry.push ing.shapes f2 incl }

/-- `_accsCanvasColors`: tracks fill and stroke colour state. -/
def _accsCanvasColors (env : Env) (ing : Ingredients) (f : String)
    (args : List ℚ) : Ingredients :=
  if f = "fill" then
    if ing.colors.fillRGBA ≠ some args then
      { ing with colors :=
          { ing.colors with fillRGBA := some args, fill := env.rgbColorName args } }
    else ing
  else if f = "stroke" then
    if ing.colors.strokeRGBA ≠ some args then
      { ing with colors :=
          { ing.colors with strokeRGBA := some args, stroke := env.rgbColorName args } }
    else ing
  else ing

/-- `_accsBackground`: snapshots the registry into `pShapes`, empties
the registry, and updates the background colour when it changed. -/
def _accsBackground (env : Env) (ing : Ingredients) (args : List ℚ) :
    Ingredients :=
  let ing2 := { ing with pShapes := some ing.shapes, shapes := ([] : Registry) }
  if ing2.colors.backgroundRGBA ≠ some args then
    { ing2 with colors :=
        { ing2.colors with backgroundRGBA := some args,
                           background := env.rgbColorName args } }
  else ing2

/-- Modelled from the spec: `_updateTextOutput` is not under src/; per
the spec the registry is read, never mutated, while generating the
descriptive text, so the call is modelled as emitting the id of the
output element it writes. -/
def _updateTextOutput (id : String) : List String := [id]

/-- Modelled from the spec: `_updateGridOutput` is not under src/; per
the spec the registry is read, never mutated, while generating the
grid output, so the call is modelled as emitting the id of the output
element it writes. -/
def _updateGridOutput (id : String) : List String := [id]

/-- `_updateAccsOutput`: regenerates the outputs when the serialized
registry differs from the stored snapshot.  Returns the new ingredients
together with the ids of the output elements that were regenerated. -/
def _updateAccsOutput (env : Env) (ing : Ingredients) :
    Ingredients × List String :=
  let cnvId := env.cnvId
  if some ing.shapes ≠ ing.pShapes then
    ({ ing with pShapes := some ing.shapes },
      (if env.accessibleOutputs.text then
        _updateTextOutput (cnvId ++ "textOutput") else []) ++
      (if env.accessibleOutputs.grid then
        _updateGridOutput (cnvId ++ "gridOutput") else []) ++
      (if env.accessibleOutputs.textLabel then
        _updateTextOutput (cnvId ++ "textOutputLabel") else []) ++
      (if env.accessibleOutputs.gridLabel then
        _updateGridOutput (cnvId ++ "gridOutputLabel") else []))
  else (ing, [])

/-! Spec-side definitions, used to state the claims. -/

/-- Clamp described by the spec for the grid locator: an index of
exactly 10 is coerced to 9. -/
def clamp10 (i : ℤ) : ℤ := if i = 10 then 9 else i

/-- Mathematical normalization of `d` modulo `m` into `[0, m)`. -/
def specNormMod (d m : ℚ) : ℚ := d - m * ⌊d / m⌋

/-- Area of the triangle formed by the arc center and its two endpoint
projections (with the cosine and sine values rounded to two decimals,
as the implementation computes the projections). -/
def arcTriangleArea (M : JsMath) (args : DrawArgs) : ℚ :=
  let a := args.num
  let Ax := a 0
  let Ay := a 1
  let Bx := a 0 + a 2 / 2 * toFixed2 (M.cos (a 4))
  let By := a 1 + a 3 / 2 * toFixed2 (M.sin (a 4))
  let Cx := a 0 + a 2 / 2 * toFixed2 (M.cos (a 5))
  let Cy := a 1 + a 3 / 2 * toFixed2 (M.sin (a 5))
  |Ax * (By - Cy) + Bx * (Cy - Ay) + Cx * (Ay - By)| / 2

/-! Concrete instances used by witnesses and counterexamples. -/

/-- Positional numeric arguments from a list (JS argument array). -/
def mkArgs (l : List ℚ) : DrawArgs := { num := fun i => l.getD i 0 }

/-- A concrete Math collaborator (values are irrelevant to the facts
evaluated with it). -/
def M0 : JsMath := { pi := 3, cos := fun _ => 0, sin := fun _ => 0, sqrt := fun _ => 0 }

/-- A concrete environment: 100 by 100 canvas, text and grid outputs on. -/
def testEnv : Env :=
  { math := M0, rgbColorName := fun _ => "c", width := 100, height := 100,
    cnvId := "cnv", accessibleOutputs := ⟨true, true, false, false⟩ }

/-- Fresh ingredients. -/
def emptyIng : Ingredients := { shapes := [], pShapes := none, colors := {} }

/-- Ingredients with a white stroke set. -/
def ingS : Ingredients := { shapes := [], pShapes := none, colors := { stroke := "white" } }

/-- Line draw arguments (10,90) to (90,90). -/
def argsLine : DrawArgs := mkArgs [10, 90, 90, 90]

/-- Rectangle draw arguments at (10,10), 50 by 20. -/
def argsRect : DrawArgs := mkArgs [10, 10, 50, 20]

/-- Rectangle draw arguments entirely off a 100 by 100 canvas. -/
def argsFar : DrawArgs := mkArgs [200, 200, 10, 20]

/-- Triangle draw arguments. -/
def argsTri : DrawArgs := mkArgs [10, 20, 30, 40, 50, 60]

/-- Draw arguments with equal size parameters (50 and 50). -/
def argsSq : DrawArgs := mkArgs [10, 10, 50, 50]

/-- Arc draw arguments: centre (0,0), sizes 4 and 4, angles 1 to 8,
default closure mode. -/
def args9 : DrawArgs := mkArgs [0, 0, 4, 4, 1, 8]

/-- Scenario: first rectangle drawn with red fill. -/
def s1 : Ingredients :=
  _accsOutput testEnv { emptyIng with colors := { fill := "red" } } "rectangle" argsRect

/-- Scenario: the identical rectangle drawn a second time. -/
def s2 : Ingredients := _accsOutput testEnv s1 "rectangle" argsRect

/-- Scenario: the fill colour is changed. -/
def s3 : Ingredients := _accsCanvasColors testEnv s2 "fill" [0, 0, 255, 255]

/-- Scenario: the same rectangle drawn with the new fill. -/
def s4 : Ingredients := _accsOutput testEnv s3 "rectangle" argsRect

/-! Registry lemmas. -/

lemma find_append_of_none {r : Registry} {key : String}
    (h : Registry.find r key = none) (k : String) (v : List ShapeRecord) :
    Registry.find (r ++ [(k, v)]) key = if k = key then some v else none := by
  induction r with
  | nil => simp [Registry.find]
  | cons p r ih =>
    obtain ⟨k1, v1⟩ := p
    by_cases hk : k1 = key
    · simp [Registry.find, hk] at h
    · simp only [List.cons_append, Registry.find, if_neg hk] at h ⊢
      exact ih h

lemma find_append_of_some {r : Registry} {key : String} {l : List ShapeRecord}
    (h : Registry.find r key = some l) (k : String) (v : List ShapeRecord) :
    Registry.find (r ++ [(k, v)]) key = some l := by
  induction r with
  | nil => simp [Registry.find] at h
  | cons p r ih =>
    obtain ⟨k1, v1⟩ := p
    by_cases hk : k1 = key
    · simp only [Registry.find, if_pos hk] at h
      simp [Registry.find, hk, h]
    · simp only [List.cons_append, Registry.find, if_neg hk] at h ⊢
      exact ih h

lemma find_push_self (r : Registry) (k : String) (v : ShapeRecord) :
    Registry.find (Registry.push r k v) k =
      (Registry.find r k).map (fun l => l ++ [v]) := by
  induction r with
  | nil => simp [Registry.find, Registry.push]
  | cons p r ih =>
    obtain ⟨k1, v1⟩ := p
    by_cases hk : k1 = k
    · simp [Registry.push, Registry.find, hk]
    · simp only [Registry.push, if_neg hk, Registry.find]
      exact ih

lemma find_push_ne {k key : String} (hne : k ≠ key) (r : Registry) (v : ShapeRecord) :
    Registry.find (Registry.push r k v) key = Registry.find r key := by
  induction r with
  | nil => simp [Registry.find, Registry.push]
  | cons p r ih =>
    obtain ⟨k1, v1⟩ := p
    by_cases hk : k1 = k
    · subst hk
      simp only [Registry.push, if_pos rfl, Registry.find]
      rw [if_neg hne, if_neg hne, ih]
    · simp only [Registry.push, if_neg hk, Registry.find]
      by_cases hk2 : k1 = key
      · rw [if_pos hk2, if_pos hk2]
      · rw [if_neg hk2, if_neg hk2, ih]

/-! Numeric lemmas. -/

lemma jsFloorIdx_range {x w : ℚ} (hw : 0 < w) (hx0 : 0 ≤ x) (hx1 : x ≤ w) :
    0 ≤ jsFloor (x / w * 10) ∧ jsFloor (x / w * 10) ≤ 10 := by
  have h0 : (0 : ℚ) ≤ x / w * 10 :=
    mul_nonneg (div_nonneg hx0 hw.le) (by norm_num)
  have h10 : x / w * 10 ≤ 10 := by
    rw [div_mul_eq_mul_div, div_le_iff₀ hw]
    nlinarith
  constructor
  · exact Int.floor_nonneg.mpr h0
  · have := Int.floor_mono h10
    simpa [jsFloor] using this

lemma canvasLocator_range {x y w h : ℚ} (hw : 0 < w) (hh : 0 < h)
    (hx0 : 0 ≤ x) (hx1 : x ≤ w) (hy0 : 0 ≤ y) (hy1 : y ≤ h) :
    0 ≤ (_canvasLocator x y w h).1 ∧ (_canvasLocator x y w h).1 ≤ 9 ∧
    0 ≤ (_canvasLocator x y w h).2 ∧ (_canvasLocator x y w h).2 ≤ 9 := by
  obtain ⟨ha, hb⟩ := jsFloorIdx_range hw hx0 hx1
  obtain ⟨hc, hd⟩ := jsFloorIdx_range hh hy0 hy1
  simp only [_canvasLocator]
  split_ifs <;> omega

lemma buildInclude_loc (env : Env) (c : Colors) (f : String) (args : DrawArgs) :
    (buildInclude env c f args).loc =
      _canvasLocator (_getMiddle f args).1 (_getMiddle f args).2
        env.width env.height := by
  simp only [buildInclude]
  split_ifs <;> rfl

lemma jsTrunc_of_nonneg {x : ℚ} (h : 0 ≤ x) : jsTrunc x = ⌊x⌋ :=
  if_neg (not_lt.mpr h)

lemma jsTrunc_le_add_one (x : ℚ) : (jsTrunc x : ℚ) ≤ x + 1 := by
  unfold jsTrunc
  split
  · exact (Int.ceil_lt_add_one x).le
  · have := Int.floor_le x
    linarith

lemma specNormMod_eq_fract (d m : ℚ) (hm : m ≠ 0) :
    specNormMod d m = m * Int.fract (d / m) := by
  unfold specNormMod Int.fract
  field_simp

lemma specNormMod_bounds (d m : ℚ) (hm : 0 < m) :
    0 ≤ specNormMod d m ∧ specNormMod d m < m := by
  rw [specNormMod_eq_fract d m hm.ne']
  constructor
  · exact mul_nonneg hm.le (Int.fract_nonneg _)
  · calc m * Int.fract (d / m) < m * 1 :=
        mul_lt_mul_of_pos_left (Int.fract_lt_one _) hm
      _ = m := mul_one m

lemma jsRem_double (d m : ℚ) (hm : 0 < m) :
    jsRem (jsRem d m + m) m = specNormMod d m := by
  have hm0 : m ≠ 0 := ne_of_gt hm
  have ht : (jsTrunc (d / m) : ℚ) ≤ d / m + 1 := jsTrunc_le_add_one (d / m)
  have hjs1 : jsRem d m = d - m * (jsTrunc (d / m) : ℚ) := rfl
  have hv : (jsRem d m + m) / m = d / m - (jsTrunc (d / m) : ℚ) + 1 := by
    rw [hjs1]
    field_simp
  have hvnn : 0 ≤ (jsRem d m + m) / m := by
    rw [hv]
    linarith
  have htr : jsTrunc ((jsRem d m + m) / m) = ⌊d / m⌋ - jsTrunc (d / m) + 1 := by
    have hcast : (jsRem d m + m) / m = d / m + ((1 - jsTrunc (d / m) : ℤ) : ℚ) := by
      rw [hv]
      push_cast
      ring
    rw [jsTrunc_of_nonneg hvnn, hcast, Int.floor_add_int]
    ring
  have hfin : jsRem (jsRem d m + m) m =
      (jsRem d m + m) - m * (jsTrunc ((jsRem d m + m) / m) : ℚ) := rfl
  rw [hfin, htr, hjs1]
  unfold specNormMod
  push_cast
  ring

/-- C2: the code, evaluated at the failing input.  On a 100 by 100
canvas, with stroke colour "white", `_accsOutput` for a line from
(10,90) to (90,90) stores a record whose colour is the stroke colour
but whose pos field is "from top left to top right", because the source
passes the literal arrays [1] and [3] (coercing to the numbers 1 and 3)
as the y inputs of `_getPos` instead of the endpoint y coordinates;
`_getPos` on the actual endpoints yields "bottom left" and
"bottom right", so the claimed pos would be
"from bottom left to bottom right". -/
theorem C2_line_endpoint_positions :
    Registry.find (_accsOutput testEnv ingS "line" argsLine).shapes "line" =
      some [{ color := "white", length := some 0, area := none,
              pos := "from top left to top right", loc := (5, 9) }] ∧
    _getPos (argsLine.num 0) (argsLine.num 1) testEnv.width testEnv.height =
      "bottom left" ∧
    _getPos (argsLine.num 2) (argsLine.num 3) testEnv.width testEnv.height =
      "bottom right" ∧
    ("from top left to top right" : String) ≠ "from bottom left to bottom right" := by
  refine ⟨?_, ?_, ?_, by decide⟩ <;>
    norm_num +decide [_accsOutput, buildInclude, reclassifyKind, _getMiddle,
      _getPos, _canvasLocator, jsFloor, jsRound, Registry.find, dist, testEnv,
      ingS, argsLine, mkArgs, M0]

/-- C5: `_getPos` partitions the canvas with strict comparisons against
40 and 60 percent of the canvas width and height: a coordinate exactly
at 40 or 60 percent falls into the middle band, the label is the bare
"middle" when both axes fall in the centre band, and on a 100 by 100
canvas (10,10), (50,10), (90,50) and (50,50) map to "top left",
"top middle", "mid right" and "middle". -/
theorem C5_getPos_partition (x y w h : ℚ) (hw : 0 < w) (hh : 0 < h) :
    ((x = 0.4 * w ∨ x = 0.6 * w) →
      _getPos x y w h = "top middle" ∨ _getPos x y w h = "bottom middle" ∨
        _getPos x y w h = "middle") ∧
    ((y = 0.4 * h ∨ y = 0.6 * h) →
      _getPos x y w h = "mid left" ∨ _getPos x y w h = "mid right" ∨
        _getPos x y w h = "middle") ∧
    (0.4 * w ≤ x → x ≤ 0.6 * w → 0.4 * h ≤ y → y ≤ 0.6 * h →
      _getPos x y w h = "middle") ∧
    (_getPos 10 10 100 100 = "top left" ∧ _getPos 50 10 100 100 = "top middle" ∧
      _getPos 90 50 100 100 = "mid right" ∧ _getPos 50 50 100 100 = "middle") := by
  refine ⟨?_, ?_, ?_, by norm_num [_getPos], by norm_num [_getPos],
    by norm_num [_getPos], by norm_num [_getPos]⟩
  · intro hx
    have hx1 : ¬(x < 0.4 * w) := by rcases hx with rfl | rfl <;> [exact lt_irrefl _; nlinarith]
    have hx2 : ¬(x > 0.6 * w) := by rcases hx with rfl | rfl <;> [nlinarith; exact lt_irrefl _]
    unfold _getPos
    rw [if_neg hx1, if_neg hx2]
    split_ifs <;> tauto
  · intro hy
    have hy1 : ¬(y < 0.4 * h) := by rcases hy with rfl | rfl <;> [exact lt_irrefl _; nlinarith]
    have hy2 : ¬(y > 0.6 * h) := by rcases hy with rfl | rfl <;> [nlinarith; exact lt_irrefl _]
    unfold _getPos
    split_ifs <;> tauto
  · intro h1 h2 h3 h4
    unfold _getPos
    rw [if_neg (not_lt.mpr h1), if_neg (not_lt.mpr h2),
      if_neg (not_lt.mpr h3), if_neg (not_lt.mpr h4)]

/-- Witness for C5 at a concrete input: on a 100 by 100 canvas the
point (50,50) satisfies the centre-band hypotheses and maps to
"middle". -/
theorem C5_getPos_partition_witness :
    (0 : ℚ) < 100 ∧ (0.4 : ℚ) * 100 ≤ 50 ∧ (50 : ℚ) ≤ 0.6 * 100 ∧
    _getPos 50 50 100 100 = "middle" :=
  ⟨by norm_num, by norm_num, by norm_num,
    (C5_getPos_partition 50 50 100 100 (by norm_num) (by norm_num)).2.2.1
      (by norm_num) (by norm_num) (by norm_num) (by norm_num)⟩

/-- C6 counterexample: the claim states an index of exactly 10 occurs
only when x equals the canvas width or y equals the canvas height, but
for the centroid (105,50) on a 100 by 100 canvas the raw x index is
exactly 10 (and is coerced to 9) although 105 is not 100 and 50 is
not 100. -/
theorem C6_counterexample :
    jsFloor ((105 : ℚ) / 100 * 10) = 10 ∧
    _canvasLocator 105 50 100 100 = (9, 5) ∧
    (105 : ℚ) ≠ 100 ∧ (50 : ℚ) ≠ 100 := by
  norm_num [jsFloor, _canvasLocator]

/-- C6 (amended): `_canvasLocator` returns the floors of x/w*10 and
y/h*10 with an index of exactly 10 coerced to 9; for positive canvas
width the raw index equals 10 exactly when w ≤ x < 1.1*w (in
particular when x = w); on a 100 by 100 canvas (95,95) and (100,100)
both map to cell (9,9). -/
theorem C6_canvasLocator (x y w h : ℚ) :
    _canvasLocator x y w h =
      (clamp10 (jsFloor (x / w * 10)), clamp10 (jsFloor (y / h * 10))) ∧
    (0 < w → (jsFloor (x / w * 10) = 10 ↔ w ≤ x ∧ x < 1.1 * w)) ∧
    _canvasLocator 95 95 100 100 = (9, 9) ∧
    _canvasLocator 100 100 100 100 = (9, 9) := by
  refine ⟨?_, ?_, by norm_num [_canvasLocator, jsFloor],
    by norm_num [_canvasLocator, jsFloor]⟩
  · simp only [_canvasLocator, clamp10, Prod.mk.injEq]
    constructor <;> split_ifs <;> omega
  · intro hw
    unfold jsFloor
    rw [Int.floor_eq_iff, div_mul_eq_mul_div, le_div_iff₀ hw, div_lt_iff₀ hw]
    push_cast
    constructor
    · rintro ⟨h1, h2⟩
      constructor <;> nlinarith
    · rintro ⟨h1, h2⟩
      constructor <;> nlinarith

/-- Witness for C6 at a concrete input: the canvas width 100 is
positive, and the raw index of x = 100 is exactly 10 since
100 ≤ 100 < 1.1 * 100. -/
theorem C6_canvasLocator_witness :
    (0 : ℚ) < 100 ∧
    (jsFloor ((100 : ℚ) / 100 * 10) = 10 ↔ (100 : ℚ) ≤ 100 ∧ (100 : ℚ) < 1.1 * 100) :=
  ⟨by norm_num, (C6_canvasLocator 100 100 100 100).2.1 (by norm_num)⟩

/-- C4: an ellipse whose two size arguments are equal is reclassified
as a circle and a rectangle whose two size arguments are equal as a
square, before any further computation: the built record and the whole
`_accsOutput` step coincide with those of the reclassified kind. -/
theorem C4_kind_normalization (env : Env) (ing : Ingredients) (args : DrawArgs)
    (hsz : args.num 2 = args.num 3) :
    reclassifyKind "ellipse" args = "circle" ∧
    reclassifyKind "rectangle" args = "square" ∧
    buildInclude env ing.colors (reclassifyKind "ellipse" args) args =
      buildInclude env ing.colors "circle" args ∧
    buildInclude env ing.colors (reclassifyKind "rectangle" args) args =
      buildInclude env ing.colors "square" args ∧
    _accsOutput env ing "ellipse" args = _accsOutput env ing "circle" args ∧
    _accsOutput env ing "rectangle" args = _accsOutput env ing "square" args := by
  have h1 : reclassifyKind "ellipse" args = "circle" := by
    unfold reclassifyKind
    rw [if_pos ⟨rfl, hsz⟩]
  have h2 : reclassifyKind "rectangle" args = "square" := by
    unfold reclassifyKind
    rw [if_neg (fun hc => absurd hc.1 (by decide)), if_pos ⟨rfl, hsz⟩]
  have h3 : reclassifyKind "circle" args = "circle" := by
    unfold reclassifyKind
    rw [if_neg (fun hc => absurd hc.1 (by decide)),
      if_neg (fun hc => absurd hc.1 (by decide))]
  have h4 : reclassifyKind "square" args = "square" := by
    unfold reclassifyKind
    rw [if_neg (fun hc => absurd hc.1 (by decide)),
      if_neg (fun hc => absurd hc.1 (by decide))]
  refine ⟨h1, h2, by rw [h1], by rw [h2], ?_, ?_⟩
  · unfold _accsOutput
    rw [h1, h3]
  · unfold _accsOutput
    rw [h2, h4]

/-- Witness for C4 at a concrete input: with equal size arguments 50
and 50, drawing an ellipse equals drawing a circle. -/
theorem C4_kind_normalization_witness :
    argsSq.num 2 = argsSq.num 3 ∧
    _accsOutput testEnv emptyIng "ellipse" argsSq =
      _accsOutput testEnv emptyIng "circle" argsSq :=
  ⟨rfl, (C4_kind_normalization testEnv emptyIng argsSq rfl).2.2.2.2.1⟩

/-- C7 counterexample: the claim asserts both grid-cell components of
every recorded shape are in the range 0..9 for any numeric arguments,
but a rectangle at (200,200) with size 10 by 20 on a 100 by 100 canvas
is recorded with grid cell (20,21). -/
theorem C7_counterexample :
    Registry.find (_accsOutput testEnv emptyIng "rectangle" argsFar).shapes
        "rectangle" =
      some [{ color := "", length := none, area := some 2,
              pos := "bottom right", loc := (20, 21) }] ∧
    ¬((20 : ℤ) ≤ 9) := by
  refine ⟨?_, by decide⟩
  norm_num +decide [_accsOutput, buildInclude, reclassifyKind, _getMiddle,
    _getPos, _canvasLocator, _getArea, jsFloor, jsRound, Registry.find,
    testEnv, emptyIng, argsFar, mkArgs, M0]

/-- C7 (amended): for canvases of positive size, every record built for
storage by `_accsOutput` whose (reclassified-kind) centroid lies within
the canvas has both grid-cell components in the range 0..9. -/
theorem C7_grid_range (env : Env) (c : Colors) (f : String) (args : DrawArgs)
    (hw : 0 < env.width) (hh : 0 < env.height)
    (hx0 : 0 ≤ (_getMiddle (reclassifyKind f args) args).1)
    (hx1 : (_getMiddle (reclassifyKind f args) args).1 ≤ env.width)
    (hy0 : 0 ≤ (_getMiddle (reclassifyKind f args) args).2)
    (hy1 : (_getMiddle (reclassifyKind f args) args).2 ≤ env.height) :
    0 ≤ (buildInclude env c (reclassifyKind f args) args).loc.1 ∧
    (buildInclude env c (reclassifyKind f args) args).loc.1 ≤ 9 ∧
    0 ≤ (buildInclude env c (reclassifyKind f args) args).loc.2 ∧
    (buildInclude env c (reclassifyKind f args) args).loc.2 ≤ 9 := by
  rw [buildInclude_loc]
  exact canvasLocator_range hw hh hx0 hx1 hy0 hy1

/-- Witness for C7 at a concrete input: the square at (10,10) with size
50 has centroid (35,35), inside the 100 by 100 canvas, and its grid
cell components are within 0..9. -/
theorem C7_grid_range_witness :
    ((0 : ℚ) < testEnv.width ∧ (0 : ℚ) < testEnv.height ∧
      0 ≤ (_getMiddle (reclassifyKind "rectangle" argsSq) argsSq).1 ∧
      (_getMiddle (reclassifyKind "rectangle" argsSq) argsSq).1 ≤ testEnv.width ∧
      0 ≤ (_getMiddle (reclassifyKind "rectangle" argsSq) argsSq).2 ∧
      (_getMiddle (reclassifyKind "rectangle" argsSq) argsSq).2 ≤ testEnv.height) ∧
    (0 ≤ (buildInclude testEnv emptyIng.colors
        (reclassifyKind "rectangle" argsSq) argsSq).loc.1 ∧
      (buildInclude testEnv emptyIng.colors
        (reclassifyKind "rectangle" argsSq) argsSq).loc.1 ≤ 9 ∧
      0 ≤ (buildInclude testEnv emptyIng.colors
        (reclassifyKind "rectangle" argsSq) argsSq).loc.2 ∧
      (buildInclude testEnv emptyIng.colors
        (reclassifyKind "rectangle" argsSq) argsSq).loc.2 ≤ 9) :=
  ⟨⟨by norm_num [testEnv], by norm_num [testEnv],
      by norm_num +decide [_getMiddle, reclassifyKind, argsSq, mkArgs, jsRound],
      by norm_num +decide [_getMiddle, reclassifyKind, argsSq, mkArgs, jsRound, testEnv],
      by norm_num +decide [_getMiddle, reclassifyKind, argsSq, mkArgs, jsRound],
      by norm_num +decide [_getMiddle, reclassifyKind, argsSq, mkArgs, jsRound, testEnv]⟩,
    C7_grid_range testEnv emptyIng.colors "rectangle" argsSq
      (by norm_num [testEnv]) (by norm_num [testEnv])
      (by norm_num +decide [_getMiddle, reclassifyKind, argsSq, mkArgs, jsRound])
      (by norm_num +decide [_getMiddle, reclassifyKind, argsSq, mkArgs, jsRound, testEnv])
      (by norm_num +decide [_getMiddle, reclassifyKind, argsSq, mkArgs, jsRound])
      (by norm_num +decide [_getMiddle, reclassifyKind, argsSq, mkArgs, jsRound, testEnv])⟩

/-- C8: `_accsBackground` stores the snapshot of the current registry
in `pShapes`, resets the live registry to empty, updates the stored
background RGBA and its cached colour name only when the new RGBA
differs from the stored one, and leaves the fill and stroke colour
state unchanged. -/
theorem C8_background (env : Env) (ing : Ingredients) (args : List ℚ) :
    (_accsBackground env ing args).pShapes = some ing.shapes ∧
    (_accsBackground env ing args).shapes = [] ∧
    (ing.colors.backgroundRGBA = some args →
      (_accsBackground env ing args).colors = ing.colors) ∧
    (ing.colors.backgroundRGBA ≠ some args →
      (_accsBackground env ing args).colors =
        { ing.colors with backgroundRGBA := some args,
                          background := env.rgbColorName args }) ∧
    (_accsBackground env ing args).colors.fill = ing.colors.fill ∧
    (_accsBackground env ing args).colors.fillRGBA = ing.colors.fillRGBA ∧
    (_accsBackground env ing args).colors.stroke = ing.colors.stroke ∧
    (_accsBackground env ing args).colors.strokeRGBA = ing.colors.strokeRGBA := by
  unfold _accsBackground
  by_cases hbg : ing.colors.backgroundRGBA = some args <;> simp [hbg]

/-- Witness for C8 at a concrete input: fresh ingredients hold no
background RGBA, so setting the background to [0,0,0,255] stores the
tuple and its colour name. -/
theorem C8_background_witness :
    emptyIng.colors.backgroundRGBA ≠ some [0, 0, 0, 255] ∧
    (_accsBackground testEnv emptyIng [0, 0, 0, 255]).colors =
      { emptyIng.colors with backgroundRGBA := some [0, 0, 0, 255],
                             background := testEnv.rgbColorName [0, 0, 0, 255] } :=
  ⟨by simp [emptyIng],
    (C8_background testEnv emptyIng [0, 0, 0, 255]).2.2.2.1 (by simp [emptyIng])⟩

/-- C3: `_updateAccsOutput` is a no-op when the serialized registry
equals the stored snapshot; otherwise it saves the snapshot and
regenerates one output per enabled flag; consequently a second call
with no intervening drawing regenerates nothing and changes no state. -/
theorem C3_update_idempotent (env : Env) (ing : Ingredients) :
    (some ing.shapes = ing.pShapes → _updateAccsOutput env ing = (ing, [])) ∧
    (some ing.shapes ≠ ing.pShapes →
      (_updateAccsOutput env ing).1 = { ing with pShapes := some ing.shapes } ∧
      (_updateAccsOutput env ing).2 =
        (if env.accessibleOutputs.text then
          _updateTextOutput (env.cnvId ++ "textOutput") else []) ++
        (if env.accessibleOutputs.grid then
          _updateGridOutput (env.cnvId ++ "gridOutput") else []) ++
        (if env.accessibleOutputs.textLabel then
          _updateTextOutput (env.cnvId ++ "textOutputLabel") else []) ++
        (if env.accessibleOutputs.gridLabel then
          _updateGridOutput (env.cnvId ++ "gridOutputLabel") else [])) ∧
    _updateAccsOutput env (_updateAccsOutput env ing).1 =
      ((_updateAccsOutput env ing).1, []) := by
  by_cases hch : some ing.shapes = ing.pShapes
  · refine ⟨fun _ => ?_, fun hne => absurd hch hne, ?_⟩
    · unfold _updateAccsOutput
      rw [if_neg (by simpa using hch)]
    · have hfix : _updateAccsOutput env ing = (ing, []) := by
        unfold _updateAccsOutput
        rw [if_neg (by simpa using hch)]
      rw [hfix]
      unfold _updateAccsOutput
      rw [if_neg (by simpa using hch)]
  · have hstep : _updateAccsOutput env ing =
        ({ ing with pShapes := some ing.shapes },
          (if env.accessibleOutputs.text then
            _updateTextOutput (env.cnvId ++ "textOutput") else []) ++
          (if env.accessibleOutputs.grid then
            _updateGridOutput (env.cnvId ++ "gridOutput") else []) ++
          (if env.accessibleOutputs.textLabel then
            _updateTextOutput (env.cnvId ++ "textOutputLabel") else []) ++
          (if env.accessibleOutputs.gridLabel then
            _updateGridOutput (env.cnvId ++ "gridOutputLabel") else [])) := by
      unfold _updateAccsOutput
      rw [if_pos (by simpa using hch)]
    refine ⟨fun heq => absurd heq hch, fun _ => by rw [hstep]; exact ⟨rfl, rfl⟩, ?_⟩
    rw [hstep]
    unfold _updateAccsOutput
    rw [if_neg (by simp)]

/-- Witness for C3 at a concrete input: fresh ingredients have a
changed registry (snapshot is the initial empty string), so the first
call regenerates the text and grid outputs of the test environment. -/
theorem C3_update_idempotent_witness :
    some emptyIng.shapes ≠ emptyIng.pShapes ∧
    (_updateAccsOutput testEnv emptyIng).1 =
      { emptyIng with pShapes := some emptyIng.shapes } ∧
    (_updateAccsOutput testEnv emptyIng).2 =
      (if testEnv.accessibleOutputs.text then
        _updateTextOutput (testEnv.cnvId ++ "textOutput") else []) ++
      (if testEnv.accessibleOutputs.grid then
        _updateGridOutput (testEnv.cnvId ++ "gridOutput") else []) ++
      (if testEnv.accessibleOutputs.textLabel then
        _updateTextOutput (testEnv.cnvId ++ "textOutputLabel") else []) ++
      (if testEnv.accessibleOutputs.gridLabel then
        _updateGridOutput (testEnv.cnvId ++ "gridOutputLabel") else []) :=
  ⟨by simp [emptyIng],
    ((C3_update_idempotent testEnv emptyIng).2.1 (by simp [emptyIng])).1,
    ((C3_update_idempotent testEnv emptyIng).2.1 (by simp [emptyIng])).2⟩

/-- C1: registry deduplication.  The first record of a kind not yet in
the registry is always stored; a record structurally equal to a stored
record of the same kind is discarded; the no-two-identical-records
invariant is preserved by every `_accsOutput` call; and concretely two
identical rectangles store one record while a third differing only in
fill colour stores a second. -/
theorem C1_dedup (env : Env) (ing : Ingredients) (f : String) (args : DrawArgs) :
    (Registry.find ing.shapes (reclassifyKind f args) = none →
      Registry.find (_accsOutput env ing f args).shapes (reclassifyKind f args) =
        some [buildInclude env ing.colors (reclassifyKind f args) args]) ∧
    (∀ recs, Registry.find ing.shapes (reclassifyKind f args) = some recs →
      buildInclude env ing.colors (reclassifyKind f args) args ∈ recs →
      _accsOutput env ing f args = ing) ∧
    ((∀ k recs, Registry.find ing.shapes k = some recs → recs.Nodup) →
      ∀ k recs, Registry.find (_accsOutput env ing f args).shapes k = some recs →
        recs.Nodup) ∧
    ((Registry.find s2.shapes "rectangle").map List.length = some 1 ∧
      (Registry.find s4.shapes "rectangle").map List.length = some 2) := by
  refine ⟨?_, ?_, ?_, ?_⟩
  · intro hnone
    simp only [_accsOutput]
    rw [hnone]
    have := find_append_of_none hnone (reclassifyKind f args)
      [buildInclude env ing.colors (reclassifyKind f args) args]
    simpa using this
  · intro recs hsome hmem
    simp only [_accsOutput]
    rw [hsome]
    simp [hmem]
  · intro hinv k recs hfind
    simp only [_accsOutput] at hfind
    rcases hcase : Registry.find ing.shapes (reclassifyKind f args) with _ | recs0
    · rw [hcase] at hfind
      rcases hk : Registry.find ing.shapes k with _ | l
      · rw [find_append_of_none hk _ _] at hfind
        split at hfind
        · simp only [Option.some.injEq] at hfind
          subst hfind
          simp
        · cases hfind
      · rw [find_append_of_some hk _ _] at hfind
        simp only [Option.some.injEq] at hfind
        subst hfind
        exact hinv k _ hk
    · rw [hcase] at hfind
      by_cases hmem : buildInclude env ing.colors (reclassifyKind f args) args ∈ recs0
      · simp only [if_pos hmem] at hfind
        exact hinv k recs hfind
      · simp only [if_neg hmem] at hfind
        by_cases hk : reclassifyKind f args = k
        · subst hk
          have heq : Registry.find (Registry.push ing.shapes
              (reclassifyKind f args)
              (buildInclude env ing.colors (reclassifyKind f args) args))
              (reclassifyKind f args) =
              some (recs0 ++ [buildInclude env ing.colors
                (reclassifyKind f args) args]) := by
            rw [find_push_self, hcase]
            rfl
          rw [heq] at hfind
          simp only [Option.some.injEq] at hfind
          subst hfind
          have h1 : recs0.Nodup := hinv _ recs0 hcase
          simp [List.nodup_append, h1, hmem]
        · rw [find_push_ne hk] at hfind
          exact hinv k recs hfind
  · constructor <;>
      norm_num +decide [s1, s2, s3, s4, _accsOutput, _accsCanvasColors,
        buildInclude, reclassifyKind, _getMiddle, _getPos, _canvasLocator,
        _getArea, jsFloor, jsRound, Registry.find, Registry.push, testEnv,
        emptyIng, argsRect, mkArgs, M0]

/-- Witness for C1 at concrete inputs: a triangle kind absent from
fresh ingredients is stored on first draw, and redrawing the rectangle
already stored in the scenario state s1 leaves s1 unchanged. -/
theorem C1_dedup_witness :
    (Registry.find emptyIng.shapes (reclassifyKind "triangle" argsTri) = none ∧
      Registry.find (_accsOutput testEnv emptyIng "triangle" argsTri).shapes
          (reclassifyKind "triangle" argsTri) =
        some [buildInclude testEnv emptyIng.colors
          (reclassifyKind "triangle" argsTri) argsTri]) ∧
    (_accsOutput testEnv s1 "rectangle" argsRect = s1) := by
  have hs1 : Registry.find s1.shapes (reclassifyKind "rectangle" argsRect) =
      some [buildInclude testEnv s1.colors (reclassifyKind "rectangle" argsRect)
        argsRect] := by
    norm_num +decide [s1, _accsOutput, buildInclude, reclassifyKind, _getMiddle,
      _getPos, _canvasLocator, _getArea, jsFloor, jsRound, Registry.find,
      testEnv, emptyIng, argsRect, mkArgs, M0]
  exact ⟨⟨rfl, (C1_dedup testEnv emptyIng "triangle" argsTri).1 rfl⟩,
    (C1_dedup testEnv s1 "rectangle" argsRect).2.1 _ hs1 (List.mem_singleton.mpr rfl)⟩

/-- C10: each `_accsOutput` call either leaves the ingredients
unchanged or appends exactly one record at the end of the
(reclassified) kind sequence; the sequences of all other kinds, the
snapshot and the colour state are untouched. -/
theorem C10_append_only (env : Env) (ing : Ingredients) (f : String)
    (args : DrawArgs) :
    (_accsOutput env ing f args).colors = ing.colors ∧
    (_accsOutput env ing f args).pShapes = ing.pShapes ∧
    (∀ k, k ≠ reclassifyKind f args →
      Registry.find (_accsOutput env ing f args).shapes k =
        Registry.find ing.shapes k) ∧
    (_accsOutput env ing f args = ing ∨
      ∃ rec, Registry.find (_accsOutput env ing f args).shapes
          (reclassifyKind f args) =
        some ((Registry.find ing.shapes (reclassifyKind f args)).getD [] ++ [rec])) := by
  rcases hcase : Registry.find ing.shapes (reclassifyKind f args) with _ | recs0
  · have hout : _accsOutput env ing f args =
        { ing with shapes := ing.shapes ++ [(reclassifyKind f args,
            [buildInclude env ing.colors (reclassifyKind f args) args])] } := by
      simp only [_accsOutput]
      rw [hcase]
    refine ⟨by rw [hout], by rw [hout], ?_, Or.inr ?_⟩
    · intro k hk
      rw [hout]
      rcases hlk : Registry.find ing.shapes k with _ | l
      · rw [find_append_of_none hlk _ _, if_neg (fun hc => hk hc.symm)]
      · rw [find_append_of_some hlk _ _]
    · refine ⟨buildInclude env ing.colors (reclassifyKind f args) args, ?_⟩
      rw [hout]
      have := find_append_of_none hcase (reclassifyKind f args)
        [buildInclude env ing.colors (reclassifyKind f args) args]
      simpa using this
  · by_cases hmem : buildInclude env ing.colors (reclassifyKind f args) args ∈ recs0
    · have hout : _accsOutput env ing f args = ing := by
        simp only [_accsOutput]
        rw [hcase]
        simp [hmem]
      exact ⟨by rw [hout], by rw [hout], fun k _ => by rw [hout], Or.inl hout⟩
    · have hout : _accsOutput env ing f args =
          { ing with shapes := (Registry.push ing.shapes (reclassifyKind f args)
              (buildInclude env ing.colors (reclassifyKind f args) args)) } := by
        simp only [_accsOutput]
        rw [hcase]
        simp [hmem]
      refine ⟨by rw [hout], by rw [hout], ?_, Or.inr ?_⟩
      · intro k hk
        rw [hout]
        exact find_push_ne (fun hc => hk hc.symm) ing.shapes _
      · refine ⟨buildInclude env ing.colors (reclassifyKind f args) args, ?_⟩
        rw [hout]
        have := find_push_self ing.shapes (reclassifyKind f args)
          (buildInclude env ing.colors (reclassifyKind f args) args)
        rw [hcase] at this
        simpa using this

/-- C9: the arc branch of `_getArea`.  The double-remainder expression
normalizes the difference of the end and start angles into [0, 2*pi)
modulo 2*pi; the base area is that normalized angle times the two size
arguments divided by 8; in "open" or "chord" mode the triangle formed
by the arc center and its two endpoint projections is added when the
normalized angle exceeds pi and subtracted otherwise; and the result is
returned as round(area*100/(canvasWidth*canvasHeight)). -/
theorem C9_arc_area (M : JsMath) (args : DrawArgs) (w h : ℚ) (hpi : 0 < M.pi) :
    (0 ≤ specNormMod (args.num 5 - args.num 4) (M.pi * 2) ∧
      specNormMod (args.num 5 - args.num 4) (M.pi * 2) < M.pi * 2) ∧
    (∃ k : ℤ, (args.num 5 - args.num 4) -
        specNormMod (args.num 5 - args.num 4) (M.pi * 2) = (M.pi * 2) * k) ∧
    (¬(args.mode = some "open" ∨ args.mode = some "chord") →
      _getArea M "arc" args w h =
        jsRound (specNormMod (args.num 5 - args.num 4) (M.pi * 2) *
          args.num 2 * args.num 3 / 8 * 100 / (w * h))) ∧
    ((args.mode = some "open" ∨ args.mode = some "chord") →
      _getArea M "arc" args w h =
        jsRound ((specNormMod (args.num 5 - args.num 4) (M.pi * 2) *
            args.num 2 * args.num 3 / 8 +
          (if specNormMod (args.num 5 - args.num 4) (M.pi * 2) > M.pi then
            arcTriangleArea M args else - arcTriangleArea M args)) * 100 /
          (w * h))) := by
  have hm : 0 < M.pi * 2 := by linarith
  have hnorm := jsRem_double (args.num 5 - args.num 4) (M.pi * 2) hm
  refine ⟨specNormMod_bounds _ _ hm,
    ⟨⌊(args.num 5 - args.num 4) / (M.pi * 2)⌋, ?_⟩, ?_, ?_⟩
  · unfold specNormMod
    ring
  · intro hmode
    simp only [_getArea, if_true]
    rw [if_neg hmode, hnorm]
  · intro hmode
    simp only [_getArea, if_true]
    rw [if_pos hmode, hnorm]
    congr 1
    simp only [arcTriangleArea]
    split_ifs <;> ring

/-- Witness for C9 at a concrete input: with pi modelled as 3, the arc
from angle 1 to angle 8 with sizes 4 and 4 on a 10 by 10 canvas, in
default (pie) mode, has the claimed base area. -/
theorem C9_arc_area_witness :
    0 < M0.pi ∧ ¬(args9.mode = some "open" ∨ args9.mode = some "chord") ∧
    _getArea M0 "arc" args9 10 10 =
      jsRound (specNormMod (args9.num 5 - args9.num 4) (M0.pi * 2) *
        args9.num 2 * args9.num 3 / 8 * 100 / (10 * 10)) :=
  ⟨by norm_num [M0], by decide,
    (C9_arc_area M0 args9 10 10 (by norm_num [M0])).2.2.1 (by decide)⟩

/-- Witness for C10 at a concrete input: drawing a rectangle does not
touch the stored line sequence. -/
theorem C10_append_only_witness :
    ("line" ≠ reclassifyKind "rectangle" argsRect) ∧
    Registry.find (_accsOutput testEnv emptyIng "rectangle" argsRect).shapes
        "line" =
      Registry.find emptyIng.shapes "line" :=
  ⟨by decide,
    (C10_append_only testEnv emptyIng "rectangle" argsRect).2.2.1 "line" (by decide)⟩

end P5A
